import Mathlib

/-!
Shallow embedding of `src/prefect/deployments/base.py` (project scaffolding
primitives for Prefect projects): the marker-directory locator, recipe
selection and templating, project initialization, the flow-registry writer
and the legacy deployments-file migration helper.

Filesystem paths are modelled as lists of path components measured from the
filesystem root: `[]` is the root `/`, `["a", "b"]` is `/a/b`.  All paths are
taken to be already resolved (absolute, no `..` components), matching the
`Path.resolve()` calls in the source.  A filesystem is a partial map from
paths to nodes (regular files with contents, or directories).
-/

namespace PrefectBase

/-- A filesystem node: a regular file with its contents, or a directory. -/
inductive FsNode where
  | file (contents : String)
  | dir
deriving DecidableEq

/-- A filesystem: a partial map from resolved absolute paths to nodes. -/
structure FS where
  node : List String → Option FsNode

/-- `Path.is_dir()`: the path exists and is a directory. -/
def FS.isDir (fs : FS) (p : List String) : Bool :=
  match fs.node p with
  | some .dir => true
  | _ => false

/-- `Path.exists()`: the path exists as a file or as a directory. -/
def FS.pexists (fs : FS) (p : List String) : Bool :=
  (fs.node p).isSome

/-- `Path.parent` on a resolved absolute path: drop the last component; the
root is its own parent. -/
def parentPath (p : List String) : List String := p.dropLast

/--
`find_prefect_directory` (base.py lines 22-39): starting from the resolved
path, repeatedly test `path/.prefect` for being a directory and step to the
parent, while `path != parent`; at the root (`path == parent`, i.e. `[]`)
the loop exits and `None` is returned.
-/
def find_prefect_directory (fs : FS) : List String → Option (List String)
  | [] => none
  | p@(_ :: _) =>
      if fs.isDir (p ++ [".prefect"]) then some (p ++ [".prefect"])
      else find_prefect_directory fs (parentPath p)
termination_by p => p.length
decreasing_by
  simp_all [parentPath, List.length_dropLast]

/--
`set_prefect_hidden_dir` (base.py lines 42-55) invoked with working
directory `cwd`: if `cwd/.prefect` exists (as a file *or* a directory) it
returns `False` and leaves the filesystem alone ("use exists so that we dont
accidentally overwrite a file"); otherwise it creates the directory and
returns `True`.  Returns the flag paired with the filesystem after the call.
-/
def set_prefect_hidden_dir (fs : FS) (cwd : List String) : Bool × FS :=
  if fs.pexists (cwd ++ [".prefect"]) then (false, fs)
  else (true, ⟨fun q => if q = cwd ++ [".prefect"] then some .dir else fs.node q⟩)

/-! ### Unfolding lemmas for the locator loop -/

theorem find_prefect_directory_root (fs : FS) : find_prefect_directory fs [] = none := by
  rw [find_prefect_directory.eq_def]

theorem find_prefect_directory_found (fs : FS) (head : String) (tail : List String)
    (hdir : fs.isDir ((head :: tail) ++ [".prefect"]) = true) :
    find_prefect_directory fs (head :: tail) = some ((head :: tail) ++ [".prefect"]) := by
  simp only [List.cons_append] at hdir ⊢
  rw [find_prefect_directory.eq_def]
  simp [hdir]

theorem find_prefect_directory_miss (fs : FS) (head : String) (tail : List String)
    (hdir : fs.isDir ((head :: tail) ++ [".prefect"]) = false) :
    find_prefect_directory fs (head :: tail) =
      find_prefect_directory fs (parentPath (head :: tail)) := by
  simp only [List.cons_append] at hdir
  rw [find_prefect_directory.eq_def]
  simp [hdir]

theorem take_parentPath (head : String) (tail : List String) (k : Nat) (hk : k ≤ tail.length) :
    (parentPath (head :: tail)).take k = (head :: tail).take k := by
  rw [parentPath, List.dropLast_eq_take, List.take_take]
  congr 1
  simp only [List.length_cons, Nat.add_sub_cancel]
  omega

theorem length_parentPath (head : String) (tail : List String) :
    (parentPath (head :: tail)).length = tail.length := by
  simp [parentPath]

/-- If no strict non-root ancestor of `p` (`p` itself included, the root `[]`
excluded) holds a `.prefect` directory, the locator returns `none`. -/
theorem find_prefect_directory_eq_none (fs : FS) (p : List String) :
    (∀ k, 0 < k → k ≤ p.length → fs.isDir (p.take k ++ [".prefect"]) = false) →
    find_prefect_directory fs p = none := by
  induction p using find_prefect_directory.induct fs with
  | case1 => exact fun _ => find_prefect_directory_root fs
  | case2 head tail hdir =>
      intro h
      have hcontra := h (head :: tail).length (by simp) le_rfl
      rw [List.take_length] at hcontra
      rw [hdir] at hcontra
      exact absurd hcontra (by simp)
  | case3 head tail hdir ih =>
      intro h
      have hdirf : fs.isDir ((head :: tail) ++ [".prefect"]) = false := by
        simpa using hdir
      rw [find_prefect_directory_miss fs head tail hdirf]
      apply ih
      intro k hk0 hk
      rw [length_parentPath] at hk
      rw [take_parentPath head tail k hk]
      exact h k hk0 (le_trans hk (by simp))

/-- If the nearest non-root ancestor of `p` holding a `.prefect` directory is
`p.take k` (every deeper candidate misses), the locator returns that marker. -/
theorem find_prefect_directory_eq_some (fs : FS) (p : List String) (k : Nat) :
    0 < k → k ≤ p.length → fs.isDir (p.take k ++ [".prefect"]) = true →
    (∀ j, k < j → j ≤ p.length → fs.isDir (p.take j ++ [".prefect"]) = false) →
    find_prefect_directory fs p = some (p.take k ++ [".prefect"]) := by
  induction p using find_prefect_directory.induct fs with
  | case1 =>
      intro hk0 hk1 _ _
      exfalso
      simp at hk1
      omega
  | case2 head tail hdir =>
      intro hk0 hkp htrue habove
      have hk : k = (head :: tail).length := by
        by_contra hne
        have hlt : k < (head :: tail).length := lt_of_le_of_ne hkp hne
        have hcontra := habove (head :: tail).length hlt le_rfl
        rw [List.take_length] at hcontra
        rw [hdir] at hcontra
        exact absurd hcontra (by simp)
      subst hk
      rw [List.take_length]
      exact find_prefect_directory_found fs head tail hdir
  | case3 head tail hdir ih =>
      intro hk0 hkp htrue habove
      have hdirf : fs.isDir ((head :: tail) ++ [".prefect"]) = false := by
        simpa using hdir
      have hk : k ≤ tail.length := by
        rcases Nat.lt_or_ge tail.length k with hlt | hge
        · exfalso
          have hkeq : k = (head :: tail).length := by
            simp only [List.length_cons] at hkp ⊢
            omega
          rw [hkeq, List.take_length] at htrue
          rw [htrue] at hdirf
          exact absurd hdirf (by simp)
        · exact hge
      rw [find_prefect_directory_miss fs head tail hdirf]
      rw [← take_parentPath head tail k hk]
      apply ih hk0 (by rw [length_parentPath]; exact hk)
      · rw [take_parentPath head tail k hk]
        exact htrue
      · intro j hjk hj
        rw [length_parentPath] at hj
        rw [take_parentPath head tail j hj]
        exact habove j hjk (le_trans hj (by simp))

/-! ### Claim C1 -/

/-- A filesystem whose only `.prefect` directory sits directly under the
filesystem root. -/
def fsRootMarker : FS :=
  ⟨fun q => if q = [".prefect"] then some .dir else none⟩

/-- C1, counterexample: starting from `/a` on a filesystem whose only marker
directory is `/.prefect` (so the root, an ancestor of `/a`, does contain a
marker), `find_prefect_directory` returns `none` instead of that marker: the
loop `while path != parent` exits at the root before ever testing
`/.prefect`, so the claim as stated — the ancestor chain searched "up to and
including the filesystem root" — is false. -/
theorem C1_root_marker_counterexample :
    fsRootMarker.isDir (([] : List String) ++ [".prefect"]) = true ∧
    find_prefect_directory fsRootMarker ["a"] = none ∧
    find_prefect_directory fsRootMarker ["a"] ≠ some (([] : List String) ++ [".prefect"]) := by
  have hmiss : fsRootMarker.isDir ((["a"]) ++ [".prefect"]) = false := by decide
  have hnone : find_prefect_directory fsRootMarker ["a"] = none := by
    rw [find_prefect_directory_miss fsRootMarker "a" [] hmiss]
    exact find_prefect_directory_root fsRootMarker
  exact ⟨by decide, hnone, by rw [hnone]; simp⟩

/-- C1 (amended): for every starting path `p`, the locator returns the marker
directory of the nearest ancestor of `p` (including `p` itself but excluding
the filesystem root, which the loop never examines) that contains one,
regardless of how deep `p` is below it; and when no ancestor strictly below
the root contains a marker, it returns `none` without failing.  Ancestors of
`p` are its prefixes `p.take k`; larger `k` is deeper, and `k = 0` (the
root) is excluded. -/
theorem C1_locator_nearest_nonroot_ancestor (fs : FS) (p : List String) :
    ((∀ k, 0 < k → k ≤ p.length → fs.isDir (p.take k ++ [".prefect"]) = false) →
      find_prefect_directory fs p = none) ∧
    (∀ k, 0 < k → k ≤ p.length → fs.isDir (p.take k ++ [".prefect"]) = true →
      (∀ j, k < j → j ≤ p.length → fs.isDir (p.take j ++ [".prefect"]) = false) →
      find_prefect_directory fs p = some (p.take k ++ [".prefect"])) :=
  ⟨find_prefect_directory_eq_none fs p, find_prefect_directory_eq_some fs p⟩

/-- A filesystem with no marker anywhere. -/
def fsEmpty : FS := ⟨fun _ => none⟩

/-- A filesystem whose only `.prefect` directory is `/a/.prefect`. -/
def fsMarkerAtA : FS :=
  ⟨fun q => if q = ["a", ".prefect"] then some .dir else none⟩

/-- C1 witness: on an empty filesystem the locator reports not-found from
`/a/b`; with the marker at `/a/.prefect` it is found from `/a/b`, two levels
deep. -/
theorem C1_locator_nearest_nonroot_ancestor_witness :
    find_prefect_directory fsEmpty ["a", "b"] = none ∧
    find_prefect_directory fsMarkerAtA ["a", "b"] =
      some (["a", "b"].take 1 ++ [".prefect"]) := by
  constructor
  · exact (C1_locator_nearest_nonroot_ancestor fsEmpty ["a", "b"]).1
      (by intro k h1 h2
          simp only [List.length_cons, List.length_nil] at h2
          interval_cases k
          all_goals decide)
  · exact (C1_locator_nearest_nonroot_ancestor fsMarkerAtA ["a", "b"]).2 1
      (by decide) (by decide) (by decide)
      (by intro j h1 h2
          simp only [List.length_cons, List.length_nil] at h2
          interval_cases j
          all_goals decide)

/-! ### Claim C9 -/

/-- C9: when a regular *file* named `.prefect` already occupies the target
path, `set_prefect_hidden_dir` returns `False` and leaves the filesystem
untouched (the `path.exists()` guard fires for files as well as
directories, so nothing is overwritten and no marker directory appears),
while the locator — which demands a *directory* via `is_dir()` — still
reports not-found from that location when no ancestor carries a marker
directory. -/
theorem C9_set_prefect_hidden_dir_existing_file (fs : FS) (cwd : List String) (c : String)
    (hfile : fs.node (cwd ++ [".prefect"]) = some (FsNode.file c))
    (hnomarker : ∀ k, 0 < k → k ≤ cwd.length →
      fs.isDir (cwd.take k ++ [".prefect"]) = false) :
    set_prefect_hidden_dir fs cwd = (false, fs) ∧
    find_prefect_directory fs cwd = none := by
  constructor
  · simp [set_prefect_hidden_dir, FS.pexists, hfile]
  · exact find_prefect_directory_eq_none fs cwd hnomarker

/-- A filesystem where `/a/.prefect` is a regular file, not a directory. -/
def fsFileAtMarker : FS :=
  ⟨fun q => if q = ["a", ".prefect"] then some (FsNode.file "stray") else none⟩

/-- C9 witness: concrete run with the stray `.prefect` file under `/a`. -/
theorem C9_set_prefect_hidden_dir_existing_file_witness :
    set_prefect_hidden_dir fsFileAtMarker ["a"] = (false, fsFileAtMarker) ∧
    find_prefect_directory fsFileAtMarker ["a"] = none :=
  C9_set_prefect_hidden_dir_existing_file fsFileAtMarker ["a"] "stray" (by decide)
    (by intro k h1 h2
        simp only [List.length_cons, List.length_nil] at h2
        interval_cases k
        all_goals decide)

/-! ### Recipe selection (`initialize_project`, base.py lines 199-232) -/

/--
base.py lines 220-229: the recipe actually used.  `is_git_based` mirrors
"`_get_git_remote_origin_url()` returned a truthy URL", `has_dockerfile`
mirrors `Path("Dockerfile").exists()`, and `recipe` is the caller's
argument (`None` when not supplied):

    if is_git_based and recipe is None:
        recipe = "docker-git" if has_dockerfile else "git"
    elif recipe is None and has_dockerfile:
        recipe = "docker"
    elif recipe is None:
        recipe = "local"
-/
def infer_recipe (is_git_based : Bool) (has_dockerfile : Bool) (recipe : Option String) :
    Option String :=
  if is_git_based = true ∧ recipe = none then
    (if has_dockerfile then some "docker-git" else some "git")
  else if recipe = none ∧ has_dockerfile = true then some "docker"
  else if recipe = none then some "local"
  else recipe

/-- C2: with no explicit recipe the inference picks exactly `docker-git`
(git + Dockerfile), `git` (git only), `docker` (Dockerfile only) or `local`
(neither); an explicitly supplied recipe name is always kept unchanged. -/
theorem C2_recipe_selection (g d : Bool) (r : String) :
    infer_recipe true true none = some "docker-git" ∧
    infer_recipe true false none = some "git" ∧
    infer_recipe false true none = some "docker" ∧
    infer_recipe false false none = some "local" ∧
    infer_recipe g d (some r) = some r := by
  refine ⟨by decide, by decide, by decide, by decide, ?_⟩
  cases g <;> cases d <;> simp [infer_recipe]

/-- Python's substring test `needle in hay`, on strings as char lists. -/
def isSubstring (needle hay : List Char) : Bool :=
  (List.range (hay.length + 1)).any (fun i => needle.isPrefixOf (hay.drop i))

/--
base.py lines 213-218: the `dockerfile` entry of the formatting context:

    if has_dockerfile:
        formatting_kwargs["dockerfile"] = "Dockerfile"
    elif recipe is not None and "docker" in recipe:
        formatting_kwargs["dockerfile"] = "auto"

`none` means the key is never inserted.
-/
def dockerfile_entry (has_dockerfile : Bool) (recipe : Option String) : Option String :=
  if has_dockerfile then some "Dockerfile"
  else
    match recipe with
    | some r => if isSubstring "docker".data r.data then some "auto" else none
    | none => none

/-- C10: with a `Dockerfile` present the context entry is `"Dockerfile"`;
with no `Dockerfile` but an explicit recipe whose name contains `"docker"`
it is `"auto"`; otherwise the key is absent. -/
theorem C10_dockerfile_context_entry (recipe : Option String) (r : String) :
    dockerfile_entry true recipe = some "Dockerfile" ∧
    (isSubstring "docker".data r.data = true →
      dockerfile_entry false (some r) = some "auto") ∧
    (isSubstring "docker".data r.data = false →
      dockerfile_entry false (some r) = none) ∧
    dockerfile_entry false none = none := by
  refine ⟨rfl, ?_, ?_, rfl⟩
  · intro h; simp [dockerfile_entry, h]
  · intro h; simp [dockerfile_entry, h]

/-- C10 witness: recipe `docker-git` without a Dockerfile yields `auto`;
recipe `git` yields no entry; a Dockerfile always yields `Dockerfile`. -/
theorem C10_dockerfile_context_entry_witness :
    dockerfile_entry false (some "docker-git") = some "auto" ∧
    dockerfile_entry false (some "git") = none ∧
    dockerfile_entry true none = some "Dockerfile" :=
  ⟨(C10_dockerfile_context_entry (some "docker-git") "docker-git").2.1 (by decide),
   (C10_dockerfile_context_entry (some "git") "git").2.2.1 (by decide),
   (C10_dockerfile_context_entry none "git").1⟩

/-! ### Project initialization file phase (base.py lines 236-244) -/

/-- Modelled from the spec: `create_default_ignore_file` is imported from
`prefect.utilities.filesystem`, which is not among the sources; per the spec
("an ignore-file (skip if exists)") it creates `.prefectignore` in the given
directory unless one already exists, returning whether it created it. -/
def create_default_ignore_file (fs : FS) (cwd : List String) (defaultContents : String) :
    Bool × FS :=
  if fs.pexists (cwd ++ [".prefectignore"]) then (false, fs)
  else (true, ⟨fun q => if q = cwd ++ [".prefectignore"] then some (FsNode.file defaultContents)
                        else fs.node q⟩)

/-- `create_default_prefect_yaml` (base.py lines 58-124), existence layer:
returns `False` leaving everything untouched when `prefect.yaml` already
exists in `path`; otherwise writes the rendered document (header comment and
ordered, commented sections — abstracted here as the already-rendered
string) and returns `True`. -/
def create_default_prefect_yaml (fs : FS) (cwd : List String) (rendered : String) :
    Bool × FS :=
  if fs.pexists (cwd ++ ["prefect.yaml"]) then (false, fs)
  else (true, ⟨fun q => if q = cwd ++ ["prefect.yaml"] then some (FsNode.file rendered)
                        else fs.node q⟩)

/--
base.py lines 236-244, the file-creation tail of `initialize_project`:

    files = []
    if create_default_ignore_file("."):
        files.append(".prefectignore")
    if create_default_prefect_yaml(".", name=project_name, contents=configuration):
        files.append("prefect.yaml")
    if set_prefect_hidden_dir():
        files.append(".prefect/")
    return files
-/
def initialize_project_files (fs : FS) (cwd : List String) (ignoreContents rendered : String) :
    List String × FS :=
  let r1 := create_default_ignore_file fs cwd ignoreContents
  let r2 := create_default_prefect_yaml r1.2 cwd rendered
  let r3 := set_prefect_hidden_dir r2.2 cwd
  ((if r1.1 then [".prefectignore"] else []) ++
   (if r2.1 then ["prefect.yaml"] else []) ++
   (if r3.1 then [".prefect/"] else []), r3.2)

/-- C4: on a directory where the ignore-file, `prefect.yaml` and the
`.prefect` marker all already exist, re-running the initialization file
phase returns an empty creation list and the filesystem completely
unchanged (nothing overwritten). -/
theorem C4_initialize_project_idempotent (fs : FS) (cwd : List String)
    (ignoreContents rendered : String)
    (h1 : fs.pexists (cwd ++ [".prefectignore"]) = true)
    (h2 : fs.pexists (cwd ++ ["prefect.yaml"]) = true)
    (h3 : fs.pexists (cwd ++ [".prefect"]) = true) :
    initialize_project_files fs cwd ignoreContents rendered = ([], fs) := by
  simp [initialize_project_files, create_default_ignore_file,
    create_default_prefect_yaml, set_prefect_hidden_dir, h1, h2, h3]

/-- An already-initialized project directory at `/p`. -/
def fsInitialized : FS :=
  ⟨fun q =>
    if q = ["p", ".prefectignore"] then some (FsNode.file "ignore")
    else if q = ["p", "prefect.yaml"] then some (FsNode.file "yaml")
    else if q = ["p", ".prefect"] then some FsNode.dir
    else none⟩

/-- C4 witness: re-initializing the concrete initialized directory `/p`
creates nothing and changes nothing. -/
theorem C4_initialize_project_idempotent_witness :
    initialize_project_files fsInitialized ["p"] "fresh-ignore" "fresh-yaml" =
      ([], fsInitialized) :=
  C4_initialize_project_idempotent fsInitialized ["p"] "fresh-ignore" "fresh-yaml"
    (by decide) (by decide) (by decide)

/-! ### Flow-registry writer (`register_flow`, base.py lines 247-301) -/

/-- The `flows.json` registry: a Python dict as an insertion-ordered
association list with unique keys. -/
abbrev Registry := List (String × String)

/-- Dict lookup `flows[k]` / `k in flows` read side. -/
def rget (r : Registry) (k : String) : Option String :=
  (r.find? (fun p => p.1 == k)).map (fun p => p.2)

/-- Dict membership `k in flows`. -/
def rcontains (r : Registry) (k : String) : Bool :=
  r.any (fun p => p.1 == k)

/-- Dict assignment `flows[k] = v`: replace in place when the key exists,
append otherwise. -/
def rset (r : Registry) (k v : String) : Registry :=
  if rcontains r k then r.map (fun p => if p.1 == k then (k, v) else p)
  else r ++ [(k, v)]

/--
base.py lines 289-299, the registry read-modify-write of `register_flow`
after the flow was loaded (its declared name `flowName`) and the entrypoint
re-expressed relative to the project root:

    if flow.name in flows and flows[flow.name] != entrypoint:
        if not force:
            raise ValueError(...)
    flows[flow.name] = entrypoint
    with flows_file.open(mode="w") as f:
        json.dump(flows, f, sort_keys=True, indent=2)

An `Except.error` models the raised `ValueError`: the function returns
before the file is opened for writing.
-/
def register_flow_registry (flows : Registry) (flowName entrypoint : String)
    (force : Bool) : Except String Registry :=
  if rcontains flows flowName = true ∧ rget flows flowName ≠ some entrypoint then
    if force = false then
      Except.error ("Conflicting entry found for flow with name '" ++ flowName ++ "':\n"
        ++ flowName ++ ": " ++ ((rget flows flowName).getD ""))
    else Except.ok (rset flows flowName entrypoint)
  else Except.ok (rset flows flowName entrypoint)

/-- Contents of `flows.json` after the call: rewritten only when
`register_flow_registry` returns successfully; on a raise the write at line
298 is never reached and the file keeps its previous contents. -/
def registry_file_after (flows : Registry) (flowName entrypoint : String)
    (force : Bool) : Registry :=
  match register_flow_registry flows flowName entrypoint force with
  | Except.ok r => r
  | Except.error _ => flows

theorem rget_some_rcontains (r : Registry) (k v : String) (h : rget r k = some v) :
    rcontains r k = true := by
  unfold rget at h
  cases hf : r.find? (fun q => q.1 == k) with
  | none => rw [hf] at h; simp at h
  | some pr =>
      have hp : pr ∈ r := List.mem_of_find?_eq_some hf
      have hk := List.find?_some (p := fun q : String × String => q.1 == k) (a := pr) (l := r) hf
      unfold rcontains
      rw [List.any_eq_true]
      exact ⟨pr, hp, hk⟩

/-- C3: when the flow's name already maps to a *different* entrypoint and
`force` is not set, registration raises and the registry file is left
unchanged; when `force` is set, or the existing mapping already equals the
new entrypoint, the mapping is written instead. -/
theorem C3_register_flow_conflict (flows : Registry) (flowName existing entrypoint : String)
    (hlook : rget flows flowName = some existing) :
    (existing ≠ entrypoint →
      (∃ msg, register_flow_registry flows flowName entrypoint false = Except.error msg) ∧
      registry_file_after flows flowName entrypoint false = flows) ∧
    (∀ force, force = true ∨ existing = entrypoint →
      register_flow_registry flows flowName entrypoint force =
        Except.ok (rset flows flowName entrypoint) ∧
      registry_file_after flows flowName entrypoint force =
        rset flows flowName entrypoint) := by
  have hc : rcontains flows flowName = true := rget_some_rcontains flows flowName existing hlook
  constructor
  · intro hne
    have hne' : rget flows flowName ≠ some entrypoint := by
      rw [hlook]
      intro hcontra
      exact hne (Option.some_injective _ hcontra)
    have herr : register_flow_registry flows flowName entrypoint false =
        Except.error ("Conflicting entry found for flow with name '" ++ flowName ++ "':\n"
          ++ flowName ++ ": " ++ ((rget flows flowName).getD "")) := by
      unfold register_flow_registry
      rw [if_pos ⟨hc, hne'⟩, if_pos rfl]
    exact ⟨⟨_, herr⟩, by simp [registry_file_after, herr]⟩
  · intro force hor
    have hok : register_flow_registry flows flowName entrypoint force =
        Except.ok (rset flows flowName entrypoint) := by
      rcases hor with hf | he
      · subst hf
        unfold register_flow_registry
        by_cases hcond : rcontains flows flowName = true ∧ rget flows flowName ≠ some entrypoint
        · rw [if_pos hcond]
          simp
        · rw [if_neg hcond]
      · unfold register_flow_registry
        rw [if_neg]
        intro hcontra
        exact hcontra.2 (by rw [hlook, he])
    exact ⟨hok, by simp [registry_file_after, hok]⟩

/-- C3 witness: with `{"my-flow": "flows.py:my_flow"}` on disk, registering
`other.py:my_flow` without force errors and leaves the file alone, while
`force` overwrites the entry. -/
theorem C3_register_flow_conflict_witness :
    ((∃ msg, register_flow_registry [("my-flow", "flows.py:my_flow")] "my-flow"
        "other.py:my_flow" false = Except.error msg) ∧
      registry_file_after [("my-flow", "flows.py:my_flow")] "my-flow"
        "other.py:my_flow" false = [("my-flow", "flows.py:my_flow")]) ∧
    (register_flow_registry [("my-flow", "flows.py:my_flow")] "my-flow"
        "other.py:my_flow" true =
      Except.ok (rset [("my-flow", "flows.py:my_flow")] "my-flow" "other.py:my_flow") ∧
      registry_file_after [("my-flow", "flows.py:my_flow")] "my-flow"
        "other.py:my_flow" true =
      rset [("my-flow", "flows.py:my_flow")] "my-flow" "other.py:my_flow") :=
  ⟨(C3_register_flow_conflict [("my-flow", "flows.py:my_flow")] "my-flow"
      "flows.py:my_flow" "other.py:my_flow" (by decide)).1 (by decide),
   (C3_register_flow_conflict [("my-flow", "flows.py:my_flow")] "my-flow"
      "flows.py:my_flow" "other.py:my_flow" (by decide)).2 true (Or.inl rfl)⟩

/-! ### Entrypoint parsing (`register_flow`, base.py lines 258-268) -/

/-- Python `entrypoint.rsplit(":", 1)` restricted to how line 259 consumes
it: `none` when the string holds no colon (a single piece, so the 2-tuple
unpacking raises), otherwise the pieces around the *last* colon. -/
def rsplitLastColon : List Char → Option (List Char × List Char)
  | [] => none
  | c :: rest =>
      match rsplitLastColon rest with
      | some (a, b) => some (c :: a, b)
      | none => if c = ':' then some ([], rest) else none

/--
base.py lines 258-268:

    try:
        fpath, obj_name = entrypoint.rsplit(":", 1)
    except ValueError as exc:
        if str(exc) == "not enough values to unpack (expected 2, got 1)":
            missing_flow_name_msg = (
                "Your flow entrypoint must include the name of the function that is"
                f" the entrypoint to your flow.\nTry {entrypoint}:<flow_name>"
            )
            raise ValueError(missing_flow_name_msg)
-/
def parse_entrypoint (entrypoint : String) : Except String (String × String) :=
  match rsplitLastColon entrypoint.data with
  | none =>
      Except.error ("Your flow entrypoint must include the name of the function that is"
        ++ " the entrypoint to your flow.\nTry " ++ entrypoint ++ ":<flow_name>")
  | some (a, b) => Except.ok (String.mk a, String.mk b)

theorem rsplitLastColon_eq_none (l : List Char) (h : ':' ∉ l) :
    rsplitLastColon l = none := by
  induction l with
  | nil => rfl
  | cons c rest ih =>
      have hc : c ≠ ':' := fun hcc => h (hcc ▸ List.mem_cons_self c rest)
      have hrest : ':' ∉ rest := fun hm => h (List.mem_cons_of_mem c hm)
      simp [rsplitLastColon, ih hrest, hc]

theorem rsplitLastColon_isSome (l : List Char) (h : ':' ∈ l) :
    (rsplitLastColon l).isSome = true := by
  induction l with
  | nil => simp at h
  | cons c rest ih =>
      rw [rsplitLastColon]
      cases hr : rsplitLastColon rest with
      | some ab => simp
      | none =>
          have hc : c = ':' := by
            rcases List.mem_cons.mp h with hh | hm
            · exact hh.symm
            · exfalso
              have hs := ih hm
              rw [hr] at hs
              simp at hs
          simp [hc]

theorem rsplitLastColon_spec (l : List Char) (a b : List Char)
    (h : rsplitLastColon l = some (a, b)) :
    a ++ ':' :: b = l ∧ ':' ∉ b := by
  induction l generalizing a b with
  | nil => simp [rsplitLastColon] at h
  | cons c rest ih =>
      rw [rsplitLastColon] at h
      cases hr : rsplitLastColon rest with
      | some ab =>
          rw [hr] at h
          obtain ⟨a0, b0⟩ := ab
          simp at h
          obtain ⟨ha, hb⟩ := h
          obtain ⟨hspec, hnb⟩ := ih a0 b0 hr
          subst ha hb
          constructor
          · simp [← hspec]
          · exact hnb
      | none =>
          rw [hr] at h
          by_cases hc : c = ':'
          · rw [if_pos hc] at h
            simp at h
            obtain ⟨ha, hb⟩ := h
            subst ha hb
            subst hc
            refine ⟨rfl, fun hm => ?_⟩
            have hs := rsplitLastColon_isSome rest hm
            rw [hr] at hs
            simp at hs
          · rw [if_neg hc] at h
            simp at h

/-- C5: an entrypoint with no colon fails with the message telling the
caller to append `:<flow_name>` (the literal `:<flow_name>` is a suffix of
the message); an entrypoint with at least one colon is split at its last
colon into a path piece and a qualifier piece (the qualifier holds no
colon). -/
theorem C5_entrypoint_split (s : String) :
    (':' ∉ s.data →
      ∃ msg, parse_entrypoint s = Except.error msg ∧
        (":<flow_name>").data <:+ msg.data) ∧
    (':' ∈ s.data →
      ∃ a b, parse_entrypoint s = Except.ok (a, b) ∧
        a.data ++ ':' :: b.data = s.data ∧ ':' ∉ b.data) := by
  constructor
  · intro h
    refine ⟨"Your flow entrypoint must include the name of the function that is"
      ++ " the entrypoint to your flow.\nTry " ++ s ++ ":<flow_name>", ?_, ?_⟩
    · unfold parse_entrypoint
      rw [rsplitLastColon_eq_none s.data h]
    · rw [String.data_append]
      exact List.suffix_append _ _
  · intro h
    have hs := rsplitLastColon_isSome s.data h
    cases hr : rsplitLastColon s.data with
    | none => rw [hr] at hs; simp at hs
    | some ab =>
        obtain ⟨a, b⟩ := ab
        obtain ⟨hspec, hnb⟩ := rsplitLastColon_spec s.data a b hr
        refine ⟨String.mk a, String.mk b, ?_, ?_, hnb⟩
        · rw [parse_entrypoint, hr]
        · exact hspec

/-- C5 witness: `flows.py` (no colon) errors with the instructive suffix;
`a/b.py:my:flow` is split at its *last* colon. -/
theorem C5_entrypoint_split_witness :
    (∃ msg, parse_entrypoint "flows.py" = Except.error msg ∧
      (":<flow_name>").data <:+ msg.data) ∧
    (∃ a b, parse_entrypoint "a/b.py:my:flow" = Except.ok (a, b) ∧
      a.data ++ ':' :: b.data = ("a/b.py:my:flow").data ∧ ':' ∉ b.data) :=
  ⟨(C5_entrypoint_split "flows.py").1 (by decide),
   (C5_entrypoint_split "a/b.py:my:flow").2 (by decide)⟩

/-! ### Legacy migration helper (`_copy_deployments_into_prefect_file`,
base.py lines 304-341) -/

/-- A parsed YAML document as the Python value `yaml.safe_load` yields:
`None`, a bool, a string, a list or a dict. -/
inductive PVal where
  | pnone
  | pbool (b : Bool)
  | pstr (s : String)
  | plist (l : List PVal)
  | pdict (l : List (String × PVal))

/-- Python truthiness (`if not x`): `None`, `False`, `""`, `[]`, `{}` are
falsy. -/
def truthy : PVal → Bool
  | .pnone => false
  | .pbool b => b
  | .pstr s => !(s == "")
  | .plist l => !l.isEmpty
  | .pdict l => !l.isEmpty

/-- The Python type name, for `AttributeError` messages. -/
def pyTypeName : PVal → String
  | .pnone => "NoneType"
  | .pbool _ => "bool"
  | .pstr _ => "str"
  | .plist _ => "list"
  | .pdict _ => "dict"

/-- Python `x.get(k)`: defined only on dicts (missing key yields `None`);
on any other value — including `None` itself — it raises
`AttributeError`. -/
def pget (v : PVal) (k : String) : Except String PVal :=
  match v with
  | .pdict l =>
      Except.ok (((l.find? (fun p => p.1 == k)).map (fun p => p.2)).getD PVal.pnone)
  | _ => Except.error ("AttributeError: '" ++ pyTypeName v
      ++ "' object has no attribute 'get'")

/--
base.py lines 318-341, after both files were read: `prefectContents` is the
current text of `prefect.yaml`, `raw` the raw text of `deployment.yaml` and
`parsed` its `yaml.safe_load` result.  `dump` abstracts `yaml.dump` with
`sort_keys=False`.  Returns the new contents of `prefect.yaml` (the file is
opened in append mode, and each branch first writes `"\n"`), or the
exception raised:

    deployments = parsed_deployment_file_contents.get("deployments")
    with prefect_file.open(mode="a") as f:
        if not parsed_deployment_file_contents:
            f.write("\n"); f.write(yaml.dump({"deployments": []}, ...))
        elif not deployments:
            f.write("\n"); f.write(yaml.dump({"deployments": [parsed...]}, ...))
        else:
            f.write("\n"); f.write(raw_deployment_file_contents)

Note the `.get` call sits *before* the truthiness test of the whole
document.
-/
def copy_deployments_into_prefect_file (dump : PVal → String)
    (prefectContents raw : String) (parsed : PVal) : Except String String :=
  match pget parsed "deployments" with
  | Except.error e => Except.error e
  | Except.ok deployments =>
      if truthy parsed = false then
        Except.ok (prefectContents ++ "\n" ++ dump (PVal.pdict [("deployments", PVal.plist [])]))
      else if truthy deployments = false then
        Except.ok (prefectContents ++ "\n"
          ++ dump (PVal.pdict [("deployments", PVal.plist [parsed])]))
      else
        Except.ok (prefectContents ++ "\n" ++ raw)

/-- C7: an *empty* legacy `deployment.yaml` parses to `None`, and the very
first statement `parsed.get("deployments")` then raises `AttributeError` —
the code never reaches the branch its own comment announces ("If
deployment.yaml is empty, write an empty deployments list to
prefect.yaml"); no payload of any kind is appended. -/
theorem C7_copy_deployments_empty_file_raises (dump : PVal → String)
    (prefectContents raw : String) :
    copy_deployments_into_prefect_file dump prefectContents raw PVal.pnone =
      Except.error "AttributeError: 'NoneType' object has no attribute 'get'" := rfl

/-! ### Recipe loading and template substitution
(`configure_project_by_recipe`, base.py lines 127-151)

The template values are nested YAML structures whose string scalars are
sequences of fragments: literal text or `{{ placeholder }}` tokens. -/

/-- A fragment of a template string: literal text, or a placeholder token
(`ph n` stands for the unresolved token `{{ n }}`). -/
inductive Frag where
  | lit (s : String)
  | ph (n : String)
deriving DecidableEq

mutual
/-- A nested recipe configuration value: a string of fragments, a sequence,
or a mapping. -/
inductive TVal where
  | vstr (frags : List Frag)
  | vseq (l : TList)
  | vmap (m : TMap)
/-- A sequence of configuration values. -/
inductive TList where
  | lnil
  | lcons (hd : TVal) (tl : TList)
/-- A string-keyed mapping of configuration values. -/
inductive TMap where
  | mnil
  | mcons (k : String) (v : TVal) (tl : TMap)
end

/-- Modelled from the spec: substitution of one fragment by the Template
Substitution Engine (`apply_values` of `prefect.utilities.templating`,
which is not among the sources).  A placeholder with a matching context
entry becomes that entry's value; with no matching entry it is blanked when
the removal mode (`remove_notset`) is on, and otherwise left as the literal
unresolved token. -/
def applyFrag (values : List (String × String)) (remove_notset : Bool) : Frag → Frag
  | .lit s => .lit s
  | .ph n =>
      match (values.find? (fun p => p.1 == n)).map (fun p => p.2) with
      | some v => .lit v
      | none => if remove_notset then .lit "" else .ph n

mutual
/-- Modelled from the spec: `apply_values` (the Template Substitution
Engine, consumed not specified): a recursive walk over the nested
structure, substituting only the string leaves fragment by fragment. -/
def apply_values (t : TVal) (values : List (String × String)) (remove_notset : Bool) :
    TVal :=
  match t with
  | .vstr frags => .vstr (frags.map (applyFrag values remove_notset))
  | .vseq l => .vseq (apply_values_seq l values remove_notset)
  | .vmap m => .vmap (apply_values_map m values remove_notset)
/-- `apply_values` on sequences. -/
def apply_values_seq (l : TList) (values : List (String × String)) (remove_notset : Bool) :
    TList :=
  match l with
  | .lnil => .lnil
  | .lcons hd tl =>
      .lcons (apply_values hd values remove_notset) (apply_values_seq tl values remove_notset)
/-- `apply_values` on mappings. -/
def apply_values_map (m : TMap) (values : List (String × String)) (remove_notset : Bool) :
    TMap :=
  match m with
  | .mnil => .mnil
  | .mcons k v tl =>
      .mcons k (apply_values v values remove_notset) (apply_values_map tl values remove_notset)
end

/-- The placeholder names occurring in a fragment list. -/
def fragPlaceholders (frags : List Frag) : List String :=
  frags.filterMap (fun f => match f with | .ph n => some n | .lit _ => none)

mutual
/-- All placeholder names occurring in a configuration value. -/
def placeholders : TVal → List String
  | .vstr frags => fragPlaceholders frags
  | .vseq l => placeholders_seq l
  | .vmap m => placeholders_map m
/-- Placeholder names in a sequence. -/
def placeholders_seq : TList → List String
  | .lnil => []
  | .lcons hd tl => placeholders hd ++ placeholders_seq tl
/-- Placeholder names in a mapping. -/
def placeholders_map : TMap → List String
  | .mnil => []
  | .mcons _ v tl => placeholders v ++ placeholders_map tl
end

/--
base.py lines 139-151: look up the recipe's static asset
(`recipes/<name>/prefect.yaml`, here the association list `recipes` of
parsed assets), raise `ValueError` when it does not exist, otherwise parse
and substitute with `remove_notset=False`:

    recipe_path = Path(__file__).parent / "recipes" / recipe / "prefect.yaml"
    if not recipe_path.exists():
        raise ValueError(f"Unknown recipe {recipe!r} provided.")
    ...
    config = apply_values(template=config, values=formatting_kwargs, remove_notset=False)
-/
def configure_project_by_recipe (recipes : List (String × TVal)) (recipe : String)
    (formatting_kwargs : List (String × String)) : Except String TVal :=
  match (recipes.find? (fun p => p.1 == recipe)).map (fun p => p.2) with
  | none => Except.error ("Unknown recipe '" ++ recipe ++ "' provided.")
  | some config => Except.ok (apply_values config formatting_kwargs false)

/-! ### Claim C6 -/

/-- C6: `configure_project_by_recipe` fails with the "Unknown recipe" error
exactly when the recipe's static asset does not exist, and with an existing
asset it returns the substituted configuration without error. -/
theorem C6_configure_recipe_existence (recipes : List (String × TVal)) (recipe : String)
    (kwargs : List (String × String)) :
    (recipes.find? (fun p => p.1 == recipe) = none ↔
      configure_project_by_recipe recipes recipe kwargs =
        Except.error ("Unknown recipe '" ++ recipe ++ "' provided.")) ∧
    (∀ c, (recipes.find? (fun p => p.1 == recipe)).map (fun p => p.2) = some c →
      configure_project_by_recipe recipes recipe kwargs =
        Except.ok (apply_values c kwargs false)) := by
  constructor
  · constructor
    · intro h
      unfold configure_project_by_recipe
      rw [h]
      rfl
    · intro h
      cases hf : recipes.find? (fun p => p.1 == recipe) with
      | none => rfl
      | some pr =>
          unfold configure_project_by_recipe at h
          rw [hf] at h
          simp at h
  · intro c hc
    unfold configure_project_by_recipe
    rw [hc]

/-- A one-recipe asset store holding only `local`. -/
def recipesFixture : List (String × TVal) :=
  [("local", TVal.vstr [Frag.lit "pull: none"])]

/-- C6 witness: `bogus` raises the unknown-recipe error against the fixture
store; `local` is returned substituted. -/
theorem C6_configure_recipe_existence_witness :
    configure_project_by_recipe recipesFixture "bogus" [] =
      Except.error ("Unknown recipe '" ++ "bogus" ++ "' provided.") ∧
    configure_project_by_recipe recipesFixture "local" [] =
      Except.ok (apply_values (TVal.vstr [Frag.lit "pull: none"]) [] false) :=
  ⟨(C6_configure_recipe_existence recipesFixture "bogus" []).1.mp rfl,
   (C6_configure_recipe_existence recipesFixture "local" []).2
     (TVal.vstr [Frag.lit "pull: none"]) rfl⟩

/-! ### Claim C8 -/

theorem applyFrag_unmatched (values : List (String × String)) (f : Frag)
    (h : ∀ n, f = Frag.ph n → values.find? (fun p => p.1 == n) = none) :
    applyFrag values false f = f := by
  cases f with
  | lit s => rfl
  | ph n => simp [applyFrag, h n rfl]

theorem map_applyFrag_unmatched (values : List (String × String)) (frags : List Frag)
    (h : ∀ n, n ∈ fragPlaceholders frags → values.find? (fun p => p.1 == n) = none) :
    frags.map (applyFrag values false) = frags := by
  induction frags with
  | nil => rfl
  | cons f fs ih =>
      have hf : ∀ n, f = Frag.ph n → values.find? (fun p => p.1 == n) = none := by
        intro n hfn
        apply h n
        unfold fragPlaceholders
        rw [List.filterMap_cons]
        subst hfn
        simp
      have hfs : ∀ n, n ∈ fragPlaceholders fs → values.find? (fun p => p.1 == n) = none := by
        intro n hn
        apply h n
        unfold fragPlaceholders at hn ⊢
        rw [List.filterMap_cons]
        cases f with
        | lit s => simpa using hn
        | ph m => simp only [List.mem_cons]; exact Or.inr hn
      rw [List.map_cons, applyFrag_unmatched values f hf, ih hfs]

mutual
/-- Substitution with `remove_notset = false` is the identity on any value
none of whose placeholders has a matching context entry. -/
theorem apply_values_unmatched (t : TVal) (values : List (String × String))
    (h : ∀ n, n ∈ placeholders t → values.find? (fun p => p.1 == n) = none) :
    apply_values t values false = t :=
  match t with
  | .vstr frags => by
      unfold apply_values
      rw [map_applyFrag_unmatched values frags (by simpa [placeholders] using h)]
  | .vseq l => by
      unfold apply_values
      rw [apply_values_seq_unmatched l values (by simpa [placeholders] using h)]
  | .vmap m => by
      unfold apply_values
      rw [apply_values_map_unmatched m values (by simpa [placeholders] using h)]
/-- Sequence case of `apply_values_unmatched`. -/
theorem apply_values_seq_unmatched (l : TList) (values : List (String × String))
    (h : ∀ n, n ∈ placeholders_seq l → values.find? (fun p => p.1 == n) = none) :
    apply_values_seq l values false = l :=
  match l with
  | .lnil => rfl
  | .lcons hd tl => by
      unfold apply_values_seq
      rw [apply_values_unmatched hd values ?h1, apply_values_seq_unmatched tl values ?h2]
      case h1 =>
        intro n hn
        exact h n (by unfold placeholders_seq; rw [List.mem_append]; exact Or.inl hn)
      case h2 =>
        intro n hn
        exact h n (by unfold placeholders_seq; rw [List.mem_append]; exact Or.inr hn)
/-- Mapping case of `apply_values_unmatched`. -/
theorem apply_values_map_unmatched (m : TMap) (values : List (String × String))
    (h : ∀ n, n ∈ placeholders_map m → values.find? (fun p => p.1 == n) = none) :
    apply_values_map m values false = m :=
  match m with
  | .mnil => rfl
  | .mcons k v tl => by
      unfold apply_values_map
      rw [apply_values_unmatched v values ?h1, apply_values_map_unmatched tl values ?h2]
      case h1 =>
        intro n hn
        exact h n (by unfold placeholders_map; rw [List.mem_append]; exact Or.inl hn)
      case h2 =>
        intro n hn
        exact h n (by unfold placeholders_map; rw [List.mem_append]; exact Or.inr hn)
end

/-- C8: with the removal mode off — as in `configure_project_by_recipe`,
which passes `remove_notset=False` — every placeholder token with no
matching context entry survives substitution literally: it is still present
in the substituted fragment list; a string value all of whose placeholders
are unmatched is returned entirely unchanged; and a whole recipe
configuration with only unmatched placeholders comes back from
`configure_project_by_recipe` verbatim. -/
theorem C8_unmatched_placeholders_literal (values : List (String × String)) :
    (∀ (frags : List Frag) (n : String), Frag.ph n ∈ frags →
      values.find? (fun p => p.1 == n) = none →
      Frag.ph n ∈ frags.map (applyFrag values false)) ∧
    (∀ t, (∀ n, n ∈ placeholders t → values.find? (fun p => p.1 == n) = none) →
      apply_values t values false = t) ∧
    (∀ recipes recipe c,
      (recipes.find? (fun p : String × TVal => p.1 == recipe)).map (fun p => p.2) = some c →
      (∀ n, n ∈ placeholders c → values.find? (fun p => p.1 == n) = none) →
      configure_project_by_recipe recipes recipe values = Except.ok c) := by
  refine ⟨?_, fun t h => apply_values_unmatched t values h, ?_⟩
  · intro frags n hmem hnone
    refine List.mem_map.mpr ⟨Frag.ph n, hmem, ?_⟩
    simp [applyFrag, hnone]
  · intro recipes recipe c hc hun
    unfold configure_project_by_recipe
    rw [hc]
    show Except.ok (apply_values c values false) = Except.ok c
    rw [apply_values_unmatched c values hun]

/-- A one-recipe store whose `docker` recipe holds an unresolved
`{{ dockerfile }}` placeholder. -/
def recipesDocker : List (String × TVal) :=
  [("docker", TVal.vmap (TMap.mcons "build" (TVal.vstr [Frag.ph "dockerfile"]) TMap.mnil))]

/-- C8 witness: with context `{name: proj}`, the unmatched `branch` token
survives fragment substitution, an all-unmatched value is unchanged, and
the `docker` recipe with its unmatched `dockerfile` placeholder comes back
verbatim from `configure_project_by_recipe`. -/
theorem C8_unmatched_placeholders_literal_witness :
    Frag.ph "branch" ∈ [Frag.lit "git clone ", Frag.ph "branch"].map
      (applyFrag [("name", "proj")] false) ∧
    apply_values (TVal.vmap (TMap.mcons "build" (TVal.vstr [Frag.ph "branch"]) TMap.mnil))
      [("name", "proj")] false =
      TVal.vmap (TMap.mcons "build" (TVal.vstr [Frag.ph "branch"]) TMap.mnil) ∧
    configure_project_by_recipe recipesDocker "docker" [("name", "proj")] =
      Except.ok (TVal.vmap (TMap.mcons "build" (TVal.vstr [Frag.ph "dockerfile"]) TMap.mnil)) :=
  ⟨(C8_unmatched_placeholders_literal [("name", "proj")]).1
      [Frag.lit "git clone ", Frag.ph "branch"] "branch" (by decide) (by decide),
   (C8_unmatched_placeholders_literal [("name", "proj")]).2.1
      (TVal.vmap (TMap.mcons "build" (TVal.vstr [Frag.ph "branch"]) TMap.mnil))
      (by intro n hn; simp [placeholders, placeholders_map, fragPlaceholders] at hn
          subst hn; rfl),
   (C8_unmatched_placeholders_literal [("name", "proj")]).2.2 recipesDocker "docker"
      (TVal.vmap (TMap.mcons "build" (TVal.vstr [Frag.ph "dockerfile"]) TMap.mnil)) rfl
      (by intro n hn; simp [placeholders, placeholders_map, fragPlaceholders] at hn
          subst hn; rfl)⟩

end PrefectBase
